import Mathlib

set_option maxRecDepth 16384

/-
Verification of the transaction-categorization pipeline of a Telegram
personal-finance bot (utils.py, nlp_classifier.py, bot.py, config.py,
database.py), shallowly embedded in Lean.

Modelling conventions:
* Python strings are `String`/`List Char`.  The regex character classes `\d`,
  `\s`, `\w` are modelled over the code points actually reachable here
  (ASCII plus the Cyrillic block); Python would additionally accept exotic
  Unicode digits/whitespace, which none of the inputs of interest contain.
* Python floats are modelled as exact decimal rationals: every numeric string
  these code paths feed into float() denotes a decimal `num / 10 ^ pow`, kept
  in that representation (`DecNum`) so that everything stays computable;
  `DecNum.toRat` gives its value in ℚ.  The comparisons the code performs
  (`== 0`, `<= 0`, `> 1e9`) are exact on these decimals.
* Classifier confidences are ℚ.
* Handlers of bot.py become pure step functions: the Telegram/database side
  effects are inputs (lookup tables, the would-be insert result) and outputs
  (the list of insert calls made, the reply shown, the next conversation
  state, the per-user `context.user_data`).
-/

/-! ## Character classes (utils.py regexes) -/

def isWsC (c : Char) : Bool :=
  decide (c.toNat = 32 ∨ c.toNat = 9 ∨ c.toNat = 10 ∨ c.toNat = 13 ∨ c.toNat = 11 ∨ c.toNat = 12)

def isDigitC (c : Char) : Bool :=
  decide (48 ≤ c.toNat ∧ c.toNat ≤ 57)

def isWordC (c : Char) : Bool :=
  decide ((48 ≤ c.toNat ∧ c.toNat ≤ 57) ∨ (65 ≤ c.toNat ∧ c.toNat ≤ 90) ∨
          (97 ≤ c.toNat ∧ c.toNat ≤ 122) ∨ c.toNat = 95 ∨
          (0x400 ≤ c.toNat ∧ c.toNat ≤ 0x4FF))

def lowerC (c : Char) : Char :=
  if 65 ≤ c.toNat ∧ c.toNat ≤ 90 then Char.ofNat (c.toNat + 32)
  else if 0x410 ≤ c.toNat ∧ c.toNat ≤ 0x42F then Char.ofNat (c.toNat + 32)
  else if c.toNat = 0x401 then Char.ofNat 0x451
  else c

/-- Python str.strip(). -/
def trimC (l : List Char) : List Char :=
  ((l.dropWhile isWsC).reverse.dropWhile isWsC).reverse

def digitsToNat (ds : List Char) : ℕ :=
  ds.foldl (fun a c => 10 * a + (c.toNat - 48)) 0

/-! ## Exact decimal numbers (the float values reachable in this code) -/

/-- An exact decimal number `num / 10 ^ pow`: the value a Python float takes on
the decimal strings this code parses, represented so that it stays computable. -/
structure DecNum where
  num : ℤ
  pow : ℕ
deriving DecidableEq, Repr

def DecNum.toRat (d : DecNum) : ℚ := (d.num : ℚ) / (10 : ℚ) ^ d.pow

/-- Decimal value of a sign and two digit groups (`-?ds[.fs]`), i.e. what
`float(amount_str.replace(',', '.').replace('-', ''))` with the subsequent
re-negation computes. -/
def decOfTok (neg : Bool) (ds fs : List Char) : DecNum :=
  { num := (if neg then (-1 : ℤ) else 1) *
      ((digitsToNat ds : ℤ) * (10 : ℤ) ^ fs.length + (digitsToNat fs : ℤ)),
    pow := fs.length }

def DecNum.scale (d : DecNum) (n : ℤ) : DecNum := { num := d.num * n, pow := d.pow }

def DecNum.neg (d : DecNum) : DecNum := { num := -d.num, pow := d.pow }

/-! ## utils.parse_amount -/

/-- The unsigned part `\d+(?:[.,]\d+)?` of the numeric token, after the optional
sign was consumed (carried in `neg`). -/
def numTokCore (neg : Bool) (cs1 : List Char) :
    Option (Bool × List Char × List Char × List Char) :=
  let ds := cs1.takeWhile isDigitC
  let r1 := cs1.dropWhile isDigitC
  if ds.isEmpty then none
  else
    match r1 with
    | c :: t =>
      if ((c == '.') || (c == ',')) && (match t with | d :: _ => isDigitC d | [] => false) then
        some (neg, ds, t.takeWhile isDigitC, t.dropWhile isDigitC)
      else some (neg, ds, [], r1)
    | [] => some (neg, ds, [], [])

/-- Numeric token `-?\d+(?:[.,]\d+)?`: returns (negative?, int digits, frac digits, rest). -/
def numTok (cs : List Char) : Option (Bool × List Char × List Char × List Char) :=
  match cs with
  | c :: t => if c = '-' then numTokCore true t else numTokCore false cs
  | [] => numTokCore false []

def matchWord (w : List Char) (cs : List Char) : Option (List Char) :=
  match w, cs with
  | [], rest => some rest
  | a :: ws, c :: t => if lowerC c = a then matchWord ws t else none
  | _ :: _, [] => none

def boundaryOK (lastc : Char) (rest : List Char) : Bool :=
  match rest with
  | [] => isWordC lastc
  | c :: _ => isWordC lastc != isWordC c

/-- The currency alternation `руб|рублей|рубля|р|₽`, tried in regex order; the Bool
flags whether a word-boundary assertion follows that alternative. -/
def tryCur (words : List (List Char × Bool)) (cs : List Char) : Option (List Char) :=
  match words with
  | [] => none
  | (w, b) :: ws =>
    match matchWord w cs with
    | some rest =>
      if !b || boundaryOK (w.getLastD ' ') rest then some rest else tryCur ws cs
    | none => tryCur ws cs

def curWordsB : List (List Char × Bool) :=
  [(['р','у','б'], true), (['р','у','б','л','е','й'], true), (['р','у','б','л','я'], true),
   (['р'], true), (['₽'], true)]

def curWords3 : List (List Char × Bool) :=
  [(['р','у','б'], true), (['р','у','б','л','е','й'], true), (['р','у','б','л','я'], true),
   (['р'], true), (['₽'], false)]

/-- The thousand-suffix pattern
`^(-?\d+(?:[.,]\d+)?)\s*[кkK](?:\s*(?:руб\b|рублей\b|рубля\b|р\b|₽\b))?\s*(.*)$`,
returning (numeric value of group 1, group 2). -/
def kMatchL (cs : List Char) : Option (DecNum × List Char) :=
  match numTok cs with
  | none => none
  | some (neg, ds, fs, r1) =>
    let r2 := r1.dropWhile isWsC
    match r2 with
    | c :: r3 =>
      if c = 'к' ∨ c = 'К' ∨ c = 'k' ∨ c = 'K' then
        let r4 := r3.dropWhile isWsC
        match tryCur curWordsB r4 with
        | some r => some (decOfTok neg ds fs, r.dropWhile isWsC)
        | none => some (decOfTok neg ds fs, r4)
      else none
    | [] => none

/-- Tail of pattern 1 after the lazy group:
`\s+(-?\d+(?:[.,]\d+)?)\s*(руб\b|рублей\b|рубля\b|р\b|₽\b)?$`. -/
def tail1 (cs : List Char) : Option DecNum :=
  match cs with
  | [] => none
  | c :: _ =>
    if isWsC c then
      match numTok (cs.dropWhile isWsC) with
      | some (neg, ds, fs, r1) =>
        let r2 := r1.dropWhile isWsC
        if r2.isEmpty then some (decOfTok neg ds fs)
        else
          match tryCur curWordsB r2 with
          | some r => if r.isEmpty then some (decOfTok neg ds fs) else none
          | none => none
      | none => none
    else none

/-- Tail of pattern 2 after the lazy group: `\s+(-?\d+(?:[.,]\d+)?)$`. -/
def tail2 (cs : List Char) : Option DecNum :=
  match cs with
  | [] => none
  | c :: _ =>
    if isWsC c then
      match numTok (cs.dropWhile isWsC) with
      | some (neg, ds, fs, r1) => if r1.isEmpty then some (decOfTok neg ds fs) else none
      | none => none
    else none

/-- Lazy scan for `(.+?)` in patterns 1 and 2: the shortest nonempty prefix whose
remainder matches the tail. Returns (group 1, numeric value). -/
def lazyScan (tail : List Char → Option DecNum) :
    List Char → List Char → Option (List Char × DecNum)
  | _, [] => none
  | pre, c :: t =>
    match tail t with
    | some v => some (pre ++ [c], v)
    | none => lazyScan tail (pre ++ [c]) t

/-- Pattern 3 `^(-?\d+(?:[.,]\d+)?)\s*(руб\b|рублей\b|рубля\b|р\b|₽)?$` (note: no
boundary assertion after ₽ in this one). -/
def pat3 (cs : List Char) : Option DecNum :=
  match numTok cs with
  | some (neg, ds, fs, r1) =>
    let r2 := r1.dropWhile isWsC
    if r2.isEmpty then some (decOfTok neg ds fs)
    else
      match tryCur curWords3 r2 with
      | some r => if r.isEmpty then some (decOfTok neg ds fs) else none
      | none => none
  | none => none

/-- `re.match(r'^-?\d', s)` used to disambiguate the two-group patterns. -/
def startsNumTok (cs : List Char) : Bool :=
  match cs with
  | c :: t =>
    if c = '-' then (match t with | d :: _ => isDigitC d | [] => false) else isDigitC c
  | [] => false

def cleanAmt (cs : List Char) : List Char :=
  (cs.map (fun c => if c = ',' then '.' else c)).filter (fun c => !(c = '-'))

/-- Restricted model of Python float() for the (dead) branch where a two-group
match has a number-like first group: plain decimal forms only; any other shape
is the ValueError branch, which does `continue`. -/
def pyFloat (cs : List Char) : Option DecNum :=
  let cs := trimC cs
  let ds := cs.takeWhile isDigitC
  let r := cs.dropWhile isDigitC
  if ds.isEmpty then
    match cs with
    | c :: t =>
      if c = '.' ∧ ¬t.isEmpty ∧ (t.all isDigitC) = true then some (decOfTok false [] t) else none
    | [] => none
  else
    match r with
    | [] => some (decOfTok false ds [])
    | c :: t => if c = '.' ∧ (t.all isDigitC) = true then some (decOfTok false ds t) else none

/-- The common `if amount == 0: return None, None / return amount, description`
epilogue; a float compares equal to 0 exactly when the decimal it holds is 0. -/
def finalizeAmt (v : DecNum) (desc : List Char) : Option (DecNum × List Char) :=
  if v.num = 0 then none else some (v, desc)

def pat3run (t : List Char) : Option (DecNum × List Char) :=
  match pat3 t with
  | some v => finalizeAmt v []
  | none => none

/-- utils.parse_amount on a character list: try the thousand-suffix pattern first
(whose branch rejects `amount <= 0` itself), then patterns 1-3 in order. -/
def parseAmountCore (cs0 : List Char) : Option (DecNum × List Char) :=
  let t := trimC cs0
  if t.isEmpty then none
  else
    match kMatchL t with
    | some (v, rest) =>
      let amount := v.scale 1000
      if amount.num ≤ 0 then none else some (amount, trimC rest)
    | none =>
      match lazyScan tail1 [] t with
      | some (g1, v) => finalizeAmt v (trimC g1)
      | none =>
        match lazyScan tail2 [] t with
        | some (g1, v) =>
          if startsNumTok g1 then
            match pyFloat (cleanAmt g1) with
            | some a0 =>
              finalizeAmt (if (match g1 with | c :: _ => c == '-' | [] => false) then a0.neg else a0) []
            | none => pat3run t
          else finalizeAmt v (trimC g1)
        | none => pat3run t

/-- utils.parse_amount: `(None, None)` becomes `none`. -/
def parse_amount (s : String) : Option (DecNum × String) :=
  (parseAmountCore s.data).map (fun p => (p.1, String.mk p.2))

/-! ## utils.validate_amount -/

/-- utils.validate_amount; returns (успех, сумма, сообщение).  The float
comparisons `amount <= 0` and `amount > 1000000000` are exact on the decimals
this parser produces, and are phrased on the `num / 10 ^ pow` representation. -/
def validate_amount (s : String) : Bool × Option DecNum × String :=
  if s.data.isEmpty ∨ (trimC s.data).isEmpty then (false, none, "Введите сумму")
  else
    match parse_amount s with
    | none =>
      (false, none, "Не могу распознать сумму. Примеры:\n• 500\n• 1.5к\n• 250,50\n• 1000 руб")
    | some (a, _) =>
      if a.num ≤ 0 then (false, none, "Сумма должна быть положительной")
      else if 1000000000 * (10 : ℤ) ^ a.pow < a.num then
        (false, none, "Слишком большая сумма. Проверьте ввод.")
      else (true, some a, "")

/-! ## config.py -/

def CONFIDENCE_THRESHOLD : ℚ := mkRat 8 10

def BUDGET_RATIOS : List (String × ℚ) :=
  [("essentials", mkRat 5 10), ("wants", mkRat 3 10), ("savings", mkRat 2 10)]

def CATEGORY_GROUPS : List (String × List String) :=
  [("essentials", ["Продукты", "Транспорт", "Здоровье", "Образование"]),
   ("wants", ["Еда", "Кафе", "Развлечения"]),
   ("savings", ["Другое"])]

/-! ## nlp_classifier.py -/

/-- np.argmax with the running value: fold keeping the first index attaining the
maximum (strict `>` replaces, so ties keep the earlier index). -/
def argmaxAux : List ℚ → ℕ → ℕ × ℚ → ℕ × ℚ
  | [], _, b => b
  | x :: t, i, (bi, bv) => if bv < x then argmaxAux t (i + 1) (i, x) else argmaxAux t (i + 1) (bi, bv)

def argmaxPair (l : List ℚ) : ℕ × ℚ :=
  match l with
  | [] => (0, 0)
  | x :: t => argmaxAux t 1 (0, x)

/-- The trained model consumed by FinancialClassifier: a label set and a
probability distribution per input text (pipeline.predict_proba). -/
structure FinancialClassifier where
  classes : List String
  proba : String → List ℚ
  is_trained : Bool

/-- FinancialClassifier.predict (without return_probability).  `none` models the
ValueError raised when the model is untrained; the internal try/except maps any
in-call failure (empty distribution, label index out of range) to (None, 0.0). -/
def FinancialClassifier.predict (c : FinancialClassifier) (text : String) :
    Option (Option String × ℚ) :=
  if c.is_trained = false then none
  else if text = "" then some (none, 0)
  else
    let p := c.proba text
    if p.isEmpty then some (none, 0)
    else
      let r := argmaxPair p
      match c.classes[r.1]? with
      | some cat => some (some cat, r.2)
      | none => some (none, 0)

/-- FinancialClassifier.predict_with_threshold. -/
def FinancialClassifier.predict_with_threshold (c : FinancialClassifier) (threshold : ℚ)
    (text : String) : Option (Option String × ℚ × Bool) :=
  match c.predict text with
  | none => none
  | some (cat, conf) =>
    if threshold ≤ conf then some (cat, conf, true) else some (none, conf, false)

/-! ## bot.py: conversation state and handlers -/

/-- bot.py's local HIGH_CONFIDENCE_THRESHOLD = 0.85. -/
def HIGH_CONFIDENCE_THRESHOLD : ℚ := mkRat 85 100

/-- context.user_data: `none` means the key is absent (or was None). -/
structure UserData where
  amount : Option DecNum := none
  description : Option String := none
  suggested_category : Option String := none
  category_id : Option ℕ := none
  confidence : Option ℚ := none
  is_auto_category : Option Bool := none
  is_high_confidence : Option Bool := none
  fast_category_id : Option ℕ := none
  fast_category_name : Option String := none
deriving DecidableEq

/-- context.user_data.clear(). -/
def UserData.empty : UserData := {}

/-- Python truthiness of an optional numeric value (None and 0 are falsy). -/
def truthyDec (o : Option DecNum) : Bool :=
  match o with
  | some d => decide (d.num ≠ 0)
  | none => false

def truthyNat (o : Option ℕ) : Bool :=
  match o with
  | some n => decide (n ≠ 0)
  | none => false

/-- One database.insert_transaction call as observed at the storage boundary. -/
structure InsertCall where
  userId : ℕ
  amount : DecNum
  description : Option String
  categoryId : Option ℕ
deriving DecidableEq

/-- The ConversationHandler state a handler returns. -/
inductive ConvState
  | description | confirmCategory | fastCategory | fastAmount | ended
deriving DecidableEq

/-- Which reply/keyboard the handler shows. -/
inductive UiAction
  | parseErrorPrompt  -- "Не удалось распознать сумму…", stay in DESCRIPTION
  | savedMsg          -- "Транзакция добавлена…"
  | saveErrorMsg      -- "Ошибка при сохранении транзакции…"
  | confirmButtons    -- yes/change-category inline keyboard
  | categoryList      -- manual category selection keyboard
  | dataLostMsg       -- "Данные транзакции потеряны…"
  | repromptMsg       -- "Введите данные заново…"
  | cancelMsg         -- "Добавление отменено."
  | fastAmountPrompt  -- "Теперь введите сумму…"
  | validationErrorPrompt  -- validate_amount error, stay in FAST_AMOUNT
  | categoryNotFoundMsg    -- "Категория не найдена."
  | noCategoryMsg     -- "Ошибка: категория не выбрана…"
  | crash             -- unhandled exception (global error handler)
  | silent
deriving DecidableEq

/-- What one handler invocation did. -/
structure StepOut where
  state : ConvState
  ud : UserData
  inserts : List InsertCall
  ui : UiAction
deriving DecidableEq

/-- The branch of bot.add_transaction_text taken when `classifier and description`
is falsy: keep the defaults, then route on the stored is_auto_category flag. -/
def addTextNoClassifier (ud1 : UserData) (defaultCatId : Option ℕ) : StepOut :=
  let ud2 := { ud1 with suggested_category := some "Другое", category_id := defaultCatId }
  if ud2.is_auto_category.getD false then ⟨.confirmCategory, ud2, [], .confirmButtons⟩
  else ⟨.confirmCategory, ud2, [], .categoryList⟩

/-- bot.add_transaction_text.  Inputs: the global classifier (None when
initialization failed), database.get_category_id as a lookup, the transaction id
insert_transaction would return (None = storage failure), the user, the message
text and the incoming user_data. -/
def add_transaction_text (clf : Option FinancialClassifier)
    (getCategoryId : String → Option ℕ) (insertResult : Option ℕ)
    (userId : ℕ) (text : String) (ud0 : UserData) : StepOut :=
  match parse_amount text with
  | none => ⟨.description, ud0, [], .parseErrorPrompt⟩
  | some (amount, description) =>
    let ud1 := { ud0 with amount := some amount, description := some description }
    let defaultCatId := getCategoryId "Другое"
    match clf with
    | none => addTextNoClassifier ud1 defaultCatId
    | some c =>
      if description = "" then addTextNoClassifier ud1 defaultCatId
      else
        match c.predict_with_threshold CONFIDENCE_THRESHOLD description with
        | none => ⟨.ended, ud1, [], .crash⟩
        | some (catOpt, conf, isConfident) =>
          if isConfident then
            let cat := catOpt.getD "Другое"   -- is_confident implies a real label
            let catId := getCategoryId cat
            if HIGH_CONFIDENCE_THRESHOLD ≤ conf then
              -- auto-commit: insert immediately, clear state, END
              ⟨.ended, UserData.empty, [⟨userId, amount, some description, catId⟩],
                if insertResult.isSome then .savedMsg else .saveErrorMsg⟩
            else
              let ud2 := { ud1 with
                is_auto_category := some true, confidence := some conf,
                is_high_confidence := some false, suggested_category := some cat,
                category_id := catId }
              ⟨.confirmCategory, ud2, [], .confirmButtons⟩
          else
            let ud2 := { ud1 with
              is_auto_category := some false, confidence := some conf,
              is_high_confidence := some false,
              suggested_category := some "❓ Требуется выбор",
              category_id := defaultCatId }
            ⟨.confirmCategory, ud2, [], .categoryList⟩

/-- bot.change_category_callback: show the manual category list. -/
def change_category_callback (ud : UserData) : StepOut :=
  ⟨.confirmCategory, ud, [], .categoryList⟩

/-- bot.confirm_category_callback. -/
def confirm_category_callback (insertResult : Option ℕ) (userId : ℕ)
    (data : String) (ud : UserData) : StepOut :=
  if data = "change_category" then change_category_callback ud
  else if data = "confirm_yes" then
    if truthyDec ud.amount && truthyNat ud.category_id then
      ⟨.ended, UserData.empty,
        [⟨userId, ud.amount.getD ⟨0, 0⟩, ud.description, ud.category_id⟩],
        if insertResult.isSome then .savedMsg else .saveErrorMsg⟩
    else ⟨.ended, UserData.empty, [], .dataLostMsg⟩
  else if data = "confirm_no" then ⟨.description, ud, [], .repromptMsg⟩
  else ⟨.confirmCategory, ud, [], .silent⟩

/-- bot.cancel_add (also used as the /cancel fallback of the /add conversation). -/
def cancel_add (_ud : UserData) : StepOut :=
  ⟨.ended, UserData.empty, [], .cancelMsg⟩

/-- str.split("_"). -/
def splitUnd : List Char → List (List Char)
  | [] => [[]]
  | c :: t =>
    let r := splitUnd t
    if c = '_' then [] :: r
    else
      match r with
      | g :: gs => (c :: g) :: gs
      | [] => [[c]]

/-- int() on the third component of `data.split("_")`; None models the ValueError. -/
def intOfSplit2 (data : String) : Option ℕ :=
  match (splitUnd data.data).drop 2 with
  | g :: _ => if ¬g.isEmpty ∧ (g.all isDigitC) = true then some (digitsToNat g) else none
  | [] => none

def startsWithL : List Char → List Char → Bool
  | [], _ => true
  | _ :: _, [] => false
  | p :: ps, c :: cs => p = c && startsWithL ps cs

/-- bot.category_selection_callback (manual selection in the /add flow). -/
def category_selection_callback (cats : List (ℕ × String)) (data : String)
    (ud : UserData) : StepOut :=
  if data = "cancel_add" then ⟨.ended, UserData.empty, [], .cancelMsg⟩
  else if startsWithL "select_cat_".data data.data then
    match intOfSplit2 data with
    | none => ⟨.ended, ud, [], .crash⟩
    | some cid =>
      match cats.find? (fun p => p.1 == cid) with
      | some (_, name) =>
        let ud2 := { ud with
          suggested_category := some name, category_id := some cid,
          is_auto_category := some false }
        ⟨.confirmCategory, ud2, [], .confirmButtons⟩
      | none => ⟨.confirmCategory, ud, [], .silent⟩
  else ⟨.confirmCategory, ud, [], .silent⟩

/-- bot.fast_category_callback.  NOTE (as in the source): the "fast_cancel" and
category-not-found exits end the conversation without clearing user_data. -/
def fast_category_callback (cats : List (ℕ × String)) (data : String)
    (ud : UserData) : StepOut :=
  if data = "fast_cancel" then ⟨.ended, ud, [], .cancelMsg⟩
  else if startsWithL "fast_cat_".data data.data then
    match intOfSplit2 data with
    | none => ⟨.ended, ud, [], .crash⟩
    | some cid =>
      match cats.find? (fun p => p.1 == cid) with
      | some (_, name) =>
        ⟨.fastAmount,
          { ud with fast_category_id := some cid, fast_category_name := some name },
          [], .fastAmountPrompt⟩
      | none => ⟨.ended, ud, [], .categoryNotFoundMsg⟩
  else ⟨.fastCategory, ud, [], .silent⟩

/-- bot.fast_amount_input: the only commit path that runs utils.validate_amount. -/
def fast_amount_input (insertResult : Option ℕ) (userId : ℕ) (text : String)
    (ud : UserData) : StepOut :=
  match validate_amount text with
  | (false, _, _) => ⟨.fastAmount, ud, [], .validationErrorPrompt⟩
  | (true, amountOpt, _) =>
    if truthyNat ud.fast_category_id then
      ⟨.ended, UserData.empty,
        [⟨userId, amountOpt.getD ⟨0, 0⟩, none, ud.fast_category_id⟩],
        if insertResult.isSome then .savedMsg else .saveErrorMsg⟩
    else ⟨.ended, UserData.empty, [], .noCategoryMsg⟩

/-- bot.cancel_fast_add (the /cancel fallback of the /fast conversation). -/
def cancel_fast_add (_ud : UserData) : StepOut :=
  ⟨.ended, UserData.empty, [], .cancelMsg⟩

/-! ## utils.generate_budget_recommendations -/

structure PeriodStats where
  total_amount : ℚ
  by_category : List (String × ℚ)  -- (category, total), as produced by the GROUP BY

inductive RecKind | over | under | onTarget
deriving DecidableEq

inductive OverallAdvice | balanced | cutEssentials | cutWants
deriving DecidableEq

/-- `category_expenses.get(category, 0)` over the dict built from by_category
(later duplicate keys overwrite earlier ones). -/
def catExpense (byCat : List (String × ℚ)) (name : String) : ℚ :=
  ((byCat.reverse).lookup name).getD 0

/-- Total expenses of one 50/30/20 group (the CATEGORY_GROUPS summation loop). -/
def group_expense (byCat : List (String × ℚ)) (g : String) : ℚ :=
  (((CATEGORY_GROUPS.lookup g).getD []).map (catExpense byCat)).foldl (· + ·) 0

/-- `group_percentages[group]`, with the division-by-zero guard. -/
def group_percentage (s : PeriodStats) (g : String) : ℚ :=
  if 0 < s.total_amount then group_expense s.by_category g / s.total_amount * 100 else 0

/-- The deviation if/elif/else of the recommendation loop: a fixed ±10
percentage-point band around the ideal share. -/
def classify_deviation (d : ℚ) : RecKind :=
  if 10 < d then .over else if d < -10 then .under else .onTarget

/-- utils.generate_budget_recommendations: `none` is the early "недостаточно
данных" return; otherwise one classified line per BUDGET_RATIOS group, in
order, followed by the overall advice. -/
def generate_budget_recommendations (s : PeriodStats) : Option (List (String × RecKind) × OverallAdvice) :=
  if s.total_amount ≤ 0 then none
  else
    let perGroup := BUDGET_RATIOS.map (fun gi =>
      (gi.1, classify_deviation (group_percentage s gi.1 - gi.2 * 100)))
    let idealE := ((BUDGET_RATIOS.lookup "essentials").getD 0) * 100
    let idealW := ((BUDGET_RATIOS.lookup "wants").getD 0) * 100
    let eOk := |group_percentage s "essentials" - idealE| ≤ 10
    let wOk := |group_percentage s "wants" - idealW| ≤ 10
    some (perGroup, if eOk ∧ wOk then .balanced else if ¬eOk then .cutEssentials else .cutWants)

/-! ## database.get_period_statistics (the rowcount guard) -/

/-- One row of the transactions table as seen by the statistics queries. -/
structure TxRow where
  amount : DecNum
  description : Option String
  category : Option String
deriving DecidableEq

/-- Python sqlite3 DB-API: `cursor.rowcount` is -1 after a SELECT statement
(it only counts rows for INSERT/UPDATE/DELETE). -/
def select_rowcount : Int := -1

/-- The `ORDER BY t.amount DESC LIMIT 1` query result on the period's rows. -/
def maxAmountRow (rows : List TxRow) : Option TxRow :=
  rows.foldl (fun acc r =>
    match acc with
    | none => some r
    | some b => if b.amount.num * 10 ^ r.amount.pow < r.amount.num * 10 ^ b.amount.pow
                then some r else some b) none

/-- The `GROUP BY c.name ORDER BY count DESC LIMIT 1` query result. -/
def maxCountCategory (rows : List TxRow) : Option (Option String × ℕ) :=
  ((rows.map (fun r => r.category)).dedup).foldl (fun acc k =>
    let cnt := (rows.filter (fun r => r.category == k)).length
    match acc with
    | none => some (k, cnt)
    | some (bk, bc) => if bc < cnt then some (k, cnt) else some (bk, bc)) none

structure PeriodStatisticsRow where
  transaction_count : ℕ
  most_expensive : Option TxRow
  most_frequent : Option (Option String × ℕ)
deriving DecidableEq

/-- database.get_period_statistics, restricted to the fields under scrutiny: the
most_expensive/most_frequent guards test `cursor.rowcount > 0` right after a
SELECT, where sqlite3 always reports -1. -/
def get_period_statistics (rows : List TxRow) : PeriodStatisticsRow :=
  { transaction_count := rows.length,
    most_expensive := if 0 < select_rowcount then maxAmountRow rows else none,
    most_frequent := if 0 < select_rowcount then maxCountCategory rows else none }

/-! ## Helper lemmas: list scanning -/

theorem mem_of_mem_dropWhile {p : Char → Bool} :
    ∀ {l : List Char} {c : Char}, c ∈ l.dropWhile p → c ∈ l := by
  intro l
  induction l with
  | nil => intro c h; exact absurd h (by simp [List.dropWhile])
  | cons a t ih =>
    intro c h
    by_cases hp : p a = true
    · simp [List.dropWhile, hp] at h
      exact List.mem_cons_of_mem a (ih h)
    · simp [List.dropWhile, hp] at h
      simpa using h

theorem dropWhile_eq_self_of {p : Char → Bool} :
    ∀ {l : List Char}, (∀ c ∈ l, p c = false) → l.dropWhile p = l := by
  intro l h
  cases l with
  | nil => rfl
  | cons a t => simp [List.dropWhile, h a (by simp)]

theorem trimC_eq_self {l : List Char} (h : ∀ c ∈ l, isWsC c = false) : trimC l = l := by
  unfold trimC
  rw [dropWhile_eq_self_of h, dropWhile_eq_self_of (by intro c hc; exact h c (by simpa using hc)),
    List.reverse_reverse]

theorem mem_of_mem_trimC {l : List Char} {c : Char} (h : c ∈ trimC l) : c ∈ l := by
  unfold trimC at h
  rw [List.mem_reverse] at h
  have h2 := mem_of_mem_dropWhile h
  rw [List.mem_reverse] at h2
  exact mem_of_mem_dropWhile h2

theorem isWsC_false_of_digit {c : Char} (h : isDigitC c = true) : isWsC c = false := by
  simp [isDigitC] at h
  simp [isWsC]
  omega

/-- For lists `l ++ r` with `l` all-`p` and `r` not starting with `p`. -/
theorem takeWhile_append_of {p : Char → Bool} :
    ∀ (l r : List Char), (∀ c ∈ l, p c = true) →
      (match r with | [] => True | c :: _ => p c = false) →
      (l ++ r).takeWhile p = l ∧ (l ++ r).dropWhile p = r := by
  intro l
  induction l with
  | nil =>
    intro r _ hr
    cases r with
    | nil => exact ⟨rfl, rfl⟩
    | cons c t => simp at hr; simp [List.takeWhile, List.dropWhile, hr]
  | cons a l ih =>
    intro r hl hr
    have ha : p a = true := hl a (by simp)
    have := ih r (by intro c hc; exact hl c (by simp [hc])) hr
    simp [List.takeWhile, List.dropWhile, ha, this.1, this.2]

/-! ## Helper lemmas: the numeric token -/

/-- The guard on the rest after the integer digits: no decimal-separator-plus-digit
continuation at its head. -/
def noSepDigit (r : List Char) : Prop :=
  match r with
  | c :: t =>
    (((c == '.') || (c == ',')) && (match t with | d :: _ => isDigitC d | [] => false)) = false
  | [] => True

theorem numTokCore_append (neg : Bool) (ds r : List Char) (h2 : ∀ c ∈ ds, isDigitC c = true)
    (h1 : ds ≠ [])
    (hr1 : (match r with | [] => True | c :: _ => isDigitC c = false))
    (hr2 : noSepDigit r) :
    numTokCore neg (ds ++ r) = some (neg, ds, [], r) := by
  obtain ⟨d0, ds', rfl⟩ : ∃ d0 ds', ds = d0 :: ds' := by
    cases ds with
    | nil => exact absurd rfl h1
    | cons a t => exact ⟨a, t, rfl⟩
  have hspan := takeWhile_append_of (p := isDigitC) (d0 :: ds') r h2 hr1
  simp only [List.cons_append] at hspan
  unfold numTokCore
  simp only [List.cons_append, hspan.1, hspan.2]
  simp only [List.isEmpty_cons, Bool.false_eq_true, if_false]
  cases r with
  | nil => rfl
  | cons c t =>
    unfold noSepDigit at hr2
    simp only [hr2, Bool.false_eq_true, if_false]

theorem numTokCore_frac_append (neg : Bool) (ds es r : List Char)
    (h2 : ∀ c ∈ ds, isDigitC c = true) (h1 : ds ≠ [])
    (h4 : ∀ c ∈ es, isDigitC c = true) (h3 : es ≠ [])
    (hr1 : (match r with | [] => True | c :: _ => isDigitC c = false)) :
    numTokCore neg (ds ++ '.' :: (es ++ r)) = some (neg, ds, es, r) := by
  obtain ⟨d0, ds', rfl⟩ : ∃ d0 ds', ds = d0 :: ds' := by
    cases ds with
    | nil => exact absurd rfl h1
    | cons a t => exact ⟨a, t, rfl⟩
  obtain ⟨e0, es', rfl⟩ : ∃ e0 es', es = e0 :: es' := by
    cases es with
    | nil => exact absurd rfl h3
    | cons a t => exact ⟨a, t, rfl⟩
  have he0 : isDigitC e0 = true := h4 e0 (by simp)
  have hspan := takeWhile_append_of (p := isDigitC) (d0 :: ds') ('.' :: (e0 :: es' ++ r)) h2
    (by simp [isDigitC])
  simp only [List.cons_append] at hspan
  have hspan2 := takeWhile_append_of (p := isDigitC) (e0 :: es') r h4 hr1
  simp only [List.cons_append] at hspan2
  unfold numTokCore
  simp only [List.cons_append, hspan.1, hspan.2]
  simp only [List.isEmpty_cons, Bool.false_eq_true, if_false]
  simp only [show (('.' : Char) == '.') = true from rfl, Bool.true_or, Bool.true_and]
  simp only [he0, if_true, hspan2.1, hspan2.2]

theorem numTok_pos_append (ds r : List Char) (h1 : ds ≠ []) (h2 : ∀ c ∈ ds, isDigitC c = true)
    (hr1 : (match r with | [] => True | c :: _ => isDigitC c = false))
    (hr2 : noSepDigit r) :
    numTok (ds ++ r) = some (false, ds, [], r) := by
  obtain ⟨d0, ds', rfl⟩ : ∃ d0 ds', ds = d0 :: ds' := by
    cases ds with
    | nil => exact absurd rfl h1
    | cons a t => exact ⟨a, t, rfl⟩
  have hd0 : isDigitC d0 = true := h2 d0 (by simp)
  have hnotdash : ¬d0 = '-' := by
    intro e; subst e; simp [isDigitC] at hd0
  unfold numTok
  simp only [List.cons_append, if_neg hnotdash]
  rw [← List.cons_append]
  exact numTokCore_append false (d0 :: ds') r h2 h1 hr1 hr2

theorem numTok_neg_append (ds r : List Char) (h1 : ds ≠ []) (h2 : ∀ c ∈ ds, isDigitC c = true)
    (hr1 : (match r with | [] => True | c :: _ => isDigitC c = false))
    (hr2 : noSepDigit r) :
    numTok ('-' :: (ds ++ r)) = some (true, ds, [], r) := by
  unfold numTok
  simp only [if_pos rfl]
  exact numTokCore_append true ds r h2 h1 hr1 hr2

theorem numTok_frac_append (ds es r : List Char) (h1 : ds ≠ []) (h2 : ∀ c ∈ ds, isDigitC c = true)
    (h3 : es ≠ []) (h4 : ∀ c ∈ es, isDigitC c = true)
    (hr1 : (match r with | [] => True | c :: _ => isDigitC c = false)) :
    numTok (ds ++ '.' :: (es ++ r)) = some (false, ds, es, r) := by
  obtain ⟨d0, ds', rfl⟩ : ∃ d0 ds', ds = d0 :: ds' := by
    cases ds with
    | nil => exact absurd rfl h1
    | cons a t => exact ⟨a, t, rfl⟩
  have hd0 : isDigitC d0 = true := h2 d0 (by simp)
  have hnotdash : ¬d0 = '-' := by
    intro e; subst e; simp [isDigitC] at hd0
  unfold numTok
  simp only [List.cons_append, if_neg hnotdash]
  rw [← List.cons_append]
  exact numTokCore_frac_append false (d0 :: ds') es r h2 h1 h4 h3 hr1

theorem numTokCore_none_nodigit (neg : Bool) {l : List Char}
    (h : ∀ c ∈ l, isDigitC c = false) : numTokCore neg l = none := by
  unfold numTokCore
  cases l with
  | nil => rfl
  | cons a t => simp [List.takeWhile, h a (by simp)]

theorem numTok_none_nodigit {l : List Char} (h : ∀ c ∈ l, isDigitC c = false) :
    numTok l = none := by
  cases l with
  | nil => exact numTokCore_none_nodigit false (fun c hc => absurd hc (List.not_mem_nil c))
  | cons a t =>
    by_cases hdash : a = '-'
    · subst hdash
      exact numTokCore_none_nodigit true (by intro c hc; exact h c (by simp [hc]))
    · show (if a = '-' then numTokCore true t else numTokCore false (a :: t)) = none
      rw [if_neg hdash]
      exact numTokCore_none_nodigit false h

/-! ## Helper lemmas: the patterns and the scan -/

theorem tail1_nonws {c : Char} {t : List Char} (h : isWsC c = false) : tail1 (c :: t) = none := by
  simp [tail1, h]

theorem tail2_nonws {c : Char} {t : List Char} (h : isWsC c = false) : tail2 (c :: t) = none := by
  simp [tail2, h]

theorem tail1_none_nodigit {l : List Char} (h : ∀ c ∈ l, isDigitC c = false) :
    tail1 l = none := by
  cases l with
  | nil => rfl
  | cons c t =>
    by_cases hw : isWsC c = true
    · simp only [tail1]
      rw [if_pos hw, numTok_none_nodigit (by
        intro x hx
        exact h x (mem_of_mem_dropWhile hx))]
    · exact tail1_nonws (by simpa using hw)

theorem tail2_none_nodigit {l : List Char} (h : ∀ c ∈ l, isDigitC c = false) :
    tail2 l = none := by
  cases l with
  | nil => rfl
  | cons c t =>
    by_cases hw : isWsC c = true
    · simp only [tail2]
      rw [if_pos hw, numTok_none_nodigit (by
        intro x hx
        exact h x (mem_of_mem_dropWhile hx))]
    · exact tail2_nonws (by simpa using hw)

theorem lazyScan_none_of (tailf : List Char → Option DecNum) (P : List Char → Prop)
    (hmono : ∀ c t, P (c :: t) → P t) (htail : ∀ l, P l → tailf l = none) :
    ∀ (pre l : List Char), P l → lazyScan tailf pre l = none := by
  intro pre l
  induction l generalizing pre with
  | nil => intro _; rfl
  | cons c t ih =>
    intro hP
    unfold lazyScan
    rw [htail t (hmono c t hP)]
    exact ih (pre ++ [c]) (hmono c t hP)

theorem lazyScan1_none_nows {l : List Char} (h : ∀ c ∈ l, isWsC c = false) (pre : List Char) :
    lazyScan tail1 pre l = none := by
  refine lazyScan_none_of tail1 (fun m => ∀ c ∈ m, isWsC c = false) ?_ ?_ pre l h
  · intro c t hP x hx; exact hP x (by simp [hx])
  · intro m hm
    cases m with
    | nil => rfl
    | cons c t => exact tail1_nonws (hm c (by simp))

theorem lazyScan2_none_nows {l : List Char} (h : ∀ c ∈ l, isWsC c = false) (pre : List Char) :
    lazyScan tail2 pre l = none := by
  refine lazyScan_none_of tail2 (fun m => ∀ c ∈ m, isWsC c = false) ?_ ?_ pre l h
  · intro c t hP x hx; exact hP x (by simp [hx])
  · intro m hm
    cases m with
    | nil => rfl
    | cons c t => exact tail2_nonws (hm c (by simp))

theorem lazyScan1_none_nodigit {l : List Char} (h : ∀ c ∈ l, isDigitC c = false)
    (pre : List Char) : lazyScan tail1 pre l = none := by
  refine lazyScan_none_of tail1 (fun m => ∀ c ∈ m, isDigitC c = false) ?_ ?_ pre l h
  · intro c t hP x hx; exact hP x (by simp [hx])
  · intro m hm; exact tail1_none_nodigit hm

theorem lazyScan2_none_nodigit {l : List Char} (h : ∀ c ∈ l, isDigitC c = false)
    (pre : List Char) : lazyScan tail2 pre l = none := by
  refine lazyScan_none_of tail2 (fun m => ∀ c ∈ m, isDigitC c = false) ?_ ?_ pre l h
  · intro c t hP x hx; exact hP x (by simp [hx])
  · intro m hm; exact tail2_none_nodigit hm

/-! ## Helper lemmas: kMatchL and pat3 on the basic token families -/

theorem numTok_digits (ds : List Char) (h1 : ds ≠ []) (h2 : ∀ c ∈ ds, isDigitC c = true) :
    numTok ds = some (false, ds, [], []) := by
  have := numTok_pos_append ds [] h1 h2 trivial trivial
  simpa using this

theorem numTok_digits_k (ds : List Char) (h1 : ds ≠ []) (h2 : ∀ c ∈ ds, isDigitC c = true) :
    numTok (ds ++ ['к']) = some (false, ds, [], ['к']) :=
  numTok_pos_append ds ['к'] h1 h2 (by exact rfl) (by exact rfl)

theorem numTok_neg_digits (ds : List Char) (h1 : ds ≠ []) (h2 : ∀ c ∈ ds, isDigitC c = true) :
    numTok ('-' :: ds) = some (true, ds, [], []) := by
  have := numTok_neg_append ds [] h1 h2 trivial trivial
  simpa using this

theorem numTok_neg_digits_k (ds : List Char) (h1 : ds ≠ []) (h2 : ∀ c ∈ ds, isDigitC c = true) :
    numTok ('-' :: (ds ++ ['к'])) = some (true, ds, [], ['к']) :=
  numTok_neg_append ds ['к'] h1 h2 (by exact rfl) (by exact rfl)

theorem kMatchL_digits (ds : List Char) (h1 : ds ≠ []) (h2 : ∀ c ∈ ds, isDigitC c = true) :
    kMatchL ds = none := by
  unfold kMatchL
  rw [numTok_digits ds h1 h2]
  rfl

theorem kMatchL_digits_k (ds : List Char) (h1 : ds ≠ []) (h2 : ∀ c ∈ ds, isDigitC c = true) :
    kMatchL (ds ++ ['к']) = some (decOfTok false ds [], []) := by
  unfold kMatchL
  rw [numTok_digits_k ds h1 h2]
  rfl

theorem kMatchL_neg_digits (ds : List Char) (h1 : ds ≠ []) (h2 : ∀ c ∈ ds, isDigitC c = true) :
    kMatchL ('-' :: ds) = none := by
  unfold kMatchL
  rw [numTok_neg_digits ds h1 h2]
  rfl

theorem kMatchL_neg_digits_k (ds : List Char) (h1 : ds ≠ []) (h2 : ∀ c ∈ ds, isDigitC c = true) :
    kMatchL ('-' :: (ds ++ ['к'])) = some (decOfTok true ds [], []) := by
  unfold kMatchL
  rw [numTok_neg_digits_k ds h1 h2]
  rfl

theorem kMatchL_frac_k (ds es : List Char) (h1 : ds ≠ []) (h2 : ∀ c ∈ ds, isDigitC c = true)
    (h3 : es ≠ []) (h4 : ∀ c ∈ es, isDigitC c = true) :
    kMatchL (ds ++ '.' :: (es ++ ['к'])) = some (decOfTok false ds es, []) := by
  unfold kMatchL
  rw [numTok_frac_append ds es ['к'] h1 h2 h3 h4 (by exact rfl)]
  rfl

theorem pat3_digits (ds : List Char) (h1 : ds ≠ []) (h2 : ∀ c ∈ ds, isDigitC c = true) :
    pat3 ds = some (decOfTok false ds []) := by
  unfold pat3
  rw [numTok_digits ds h1 h2]
  rfl

theorem pat3_neg_digits (ds : List Char) (h1 : ds ≠ []) (h2 : ∀ c ∈ ds, isDigitC c = true) :
    pat3 ('-' :: ds) = some (decOfTok true ds []) := by
  unfold pat3
  rw [numTok_neg_digits ds h1 h2]
  rfl

theorem pat3_none_nodigit {l : List Char} (h : ∀ c ∈ l, isDigitC c = false) :
    pat3 l = none := by
  unfold pat3
  rw [numTok_none_nodigit h]

/-! ## Helper lemmas: values of parsed tokens -/

theorem decOfTok_false_nil_num (ds : List Char) :
    (decOfTok false ds []).num = (digitsToNat ds : ℤ) := by
  simp [decOfTok, digitsToNat]

theorem decOfTok_true_nil_num (ds : List Char) :
    (decOfTok true ds []).num = -(digitsToNat ds : ℤ) := by
  simp [decOfTok, digitsToNat]

theorem DecNum.toRat_int (z : ℤ) : DecNum.toRat ⟨z, 0⟩ = (z : ℚ) := by
  simp [DecNum.toRat]

theorem DecNum.scale_toRat (d : DecNum) (n : ℤ) : (d.scale n).toRat = d.toRat * n := by
  simp only [DecNum.scale, DecNum.toRat]
  push_cast
  ring

theorem decOfTok_toRat (neg : Bool) (ds fs : List Char) :
    (decOfTok neg ds fs).toRat =
      (if neg then (-1 : ℚ) else 1) *
        ((digitsToNat ds : ℚ) + (digitsToNat fs : ℚ) / (10 : ℚ) ^ fs.length) := by
  have hp : ((10 : ℚ) ^ fs.length) ≠ 0 := by positivity
  simp only [decOfTok, DecNum.toRat]
  cases neg
  · push_cast
    field_simp
  · push_cast
    field_simp

theorem DecNum.toRat_nonpos_iff (d : DecNum) : d.toRat ≤ 0 ↔ d.num ≤ 0 := by
  have hp : (0 : ℚ) < (10 : ℚ) ^ d.pow := by positivity
  unfold DecNum.toRat
  rw [div_nonpos_iff]
  constructor
  · rintro (⟨h1, h2⟩ | ⟨h1, h2⟩)
    · linarith
    · exact_mod_cast h1
  · intro h
    right
    constructor
    · exact_mod_cast h
    · linarith

theorem DecNum.toRat_pos_iff (d : DecNum) : 0 < d.toRat ↔ 0 < d.num := by
  have hp : (0 : ℚ) < (10 : ℚ) ^ d.pow := by positivity
  unfold DecNum.toRat
  rw [div_pos_iff]
  constructor
  · rintro (⟨h1, h2⟩ | ⟨h1, h2⟩)
    · exact_mod_cast h1
    · linarith
  · intro h
    left
    constructor
    · exact_mod_cast h
    · exact hp

theorem DecNum.toRat_eq_zero_iff (d : DecNum) : d.toRat = 0 ↔ d.num = 0 := by
  have hp : ((10 : ℚ) ^ d.pow) ≠ 0 := by positivity
  unfold DecNum.toRat
  rw [div_eq_zero_iff]
  simp [hp]

theorem DecNum.big_iff (d : DecNum) :
    (1000000000 : ℚ) < d.toRat ↔ (1000000000 : ℤ) * 10 ^ d.pow < d.num := by
  have hp : (0 : ℚ) < (10 : ℚ) ^ d.pow := by positivity
  unfold DecNum.toRat
  rw [lt_div_iff₀ hp]
  constructor <;> intro h <;> exact_mod_cast h

/-! ## Helper lemmas: parse_amount on whole-token families -/

theorem isEmpty_false_of_ne_nil {α : Type} {ds : List α} (h : ds ≠ []) : ds.isEmpty = false := by
  cases ds with
  | nil => exact absurd rfl h
  | cons a t => rfl

theorem parseAmountCore_digits (ds : List Char) (h1 : ds ≠ [])
    (h2 : ∀ c ∈ ds, isDigitC c = true) (h3 : digitsToNat ds ≠ 0) :
    parseAmountCore ds = some (decOfTok false ds [], []) := by
  have hnws : ∀ c ∈ ds, isWsC c = false := fun c hc => isWsC_false_of_digit (h2 c hc)
  have htrim : trimC ds = ds := trimC_eq_self hnws
  have hcast : ¬((digitsToNat ds : ℤ) = 0) := by exact_mod_cast h3
  simp only [parseAmountCore, htrim, isEmpty_false_of_ne_nil h1, Bool.false_eq_true, if_false]
  rw [kMatchL_digits ds h1 h2, lazyScan1_none_nows hnws [], lazyScan2_none_nows hnws []]
  unfold pat3run
  rw [pat3_digits ds h1 h2]
  simp only [finalizeAmt, decOfTok_false_nil_num, if_neg hcast]

theorem parseAmountCore_neg_digits (ds : List Char) (h1 : ds ≠ [])
    (h2 : ∀ c ∈ ds, isDigitC c = true) (h3 : digitsToNat ds ≠ 0) :
    parseAmountCore ('-' :: ds) = some (decOfTok true ds [], []) := by
  have hnws : ∀ c ∈ ('-' :: ds), isWsC c = false := by
    intro c hc
    rcases List.mem_cons.mp hc with h | h
    · subst h; rfl
    · exact isWsC_false_of_digit (h2 c h)
  have htrim : trimC ('-' :: ds) = '-' :: ds := trimC_eq_self hnws
  have hcast : ¬(-(digitsToNat ds : ℤ) = 0) := by
    simp only [neg_eq_zero]
    exact_mod_cast h3
  simp only [parseAmountCore, htrim, List.isEmpty_cons, Bool.false_eq_true, if_false]
  rw [kMatchL_neg_digits ds h1 h2, lazyScan1_none_nows hnws [], lazyScan2_none_nows hnws []]
  unfold pat3run
  rw [pat3_neg_digits ds h1 h2]
  simp only [finalizeAmt, decOfTok_true_nil_num, if_neg hcast]

theorem parseAmountCore_digits_k (ds : List Char) (h1 : ds ≠ [])
    (h2 : ∀ c ∈ ds, isDigitC c = true) (h3 : 0 < digitsToNat ds) :
    parseAmountCore (ds ++ ['к']) = some ((decOfTok false ds []).scale 1000, []) := by
  have hnws : ∀ c ∈ (ds ++ ['к']), isWsC c = false := by
    intro c hc
    rcases List.mem_append.mp hc with h | h
    · exact isWsC_false_of_digit (h2 c h)
    · simp at h; subst h; rfl
  have htrim : trimC (ds ++ ['к']) = ds ++ ['к'] := trimC_eq_self hnws
  have hne : (ds ++ ['к']).isEmpty = false := isEmpty_false_of_ne_nil (by simp)
  have hpos : ¬((decOfTok false ds []).scale 1000).num ≤ 0 := by
    simp only [DecNum.scale, decOfTok_false_nil_num]
    have : (0 : ℤ) < (digitsToNat ds : ℤ) := by exact_mod_cast h3
    nlinarith
  simp only [parseAmountCore, htrim, hne, Bool.false_eq_true, if_false]
  rw [kMatchL_digits_k ds h1 h2]
  simp only [if_neg hpos]
  rfl

theorem parseAmountCore_neg_digits_k (ds : List Char) (h1 : ds ≠ [])
    (h2 : ∀ c ∈ ds, isDigitC c = true) :
    parseAmountCore ('-' :: (ds ++ ['к'])) = none := by
  have hnws : ∀ c ∈ ('-' :: (ds ++ ['к'])), isWsC c = false := by
    intro c hc
    rcases List.mem_cons.mp hc with h | h
    · subst h; rfl
    · rcases List.mem_append.mp h with h | h
      · exact isWsC_false_of_digit (h2 c h)
      · simp at h; subst h; rfl
  have htrim := trimC_eq_self hnws
  have hle : ((decOfTok true ds []).scale 1000).num ≤ 0 := by
    simp only [DecNum.scale, decOfTok_true_nil_num]
    have : (0 : ℤ) ≤ (digitsToNat ds : ℤ) := by positivity
    nlinarith
  simp only [parseAmountCore, htrim, List.isEmpty_cons, Bool.false_eq_true, if_false]
  rw [kMatchL_neg_digits_k ds h1 h2]
  simp only [if_pos hle]

theorem parseAmountCore_frac_k (ds es : List Char) (h1 : ds ≠ [])
    (h2 : ∀ c ∈ ds, isDigitC c = true) (h3 : es ≠ []) (h4 : ∀ c ∈ es, isDigitC c = true)
    (h5 : 0 < (decOfTok false ds es).num) :
    parseAmountCore (ds ++ '.' :: (es ++ ['к'])) =
      some ((decOfTok false ds es).scale 1000, []) := by
  have hnws : ∀ c ∈ (ds ++ '.' :: (es ++ ['к'])), isWsC c = false := by
    intro c hc
    rcases List.mem_append.mp hc with h | h
    · exact isWsC_false_of_digit (h2 c h)
    · rcases List.mem_cons.mp h with h | h
      · subst h; rfl
      · rcases List.mem_append.mp h with h | h
        · exact isWsC_false_of_digit (h4 c h)
        · simp at h; subst h; rfl
  have htrim := trimC_eq_self hnws
  have hne : (ds ++ '.' :: (es ++ ['к'])).isEmpty = false := isEmpty_false_of_ne_nil (by simp)
  have hpos : ¬((decOfTok false ds es).scale 1000).num ≤ 0 := by
    simp only [DecNum.scale]
    nlinarith
  simp only [parseAmountCore, htrim, hne, Bool.false_eq_true, if_false]
  rw [kMatchL_frac_k ds es h1 h2 h3 h4]
  simp only [if_neg hpos]
  rfl

theorem parseAmountCore_blank (cs : List Char) (h : trimC cs = []) :
    parseAmountCore cs = none := by
  simp [parseAmountCore, h]

theorem parseAmountCore_nodigit (cs : List Char) (h : ∀ c ∈ cs, isDigitC c = false) :
    parseAmountCore cs = none := by
  have ht : ∀ c ∈ trimC cs, isDigitC c = false := fun c hc => h c (mem_of_mem_trimC hc)
  by_cases hb : (trimC cs).isEmpty = true
  · simp [parseAmountCore, hb]
  · have hkm : kMatchL (trimC cs) = none := by
      unfold kMatchL
      rw [numTok_none_nodigit ht]
    simp only [parseAmountCore, hb, Bool.false_eq_true, if_false]
    rw [hkm, lazyScan1_none_nodigit ht [], lazyScan2_none_nodigit ht []]
    unfold pat3run
    rw [pat3_none_nodigit ht]

/-! ## Helper lemmas: argmax -/

theorem getD_append_length (pre : List ℚ) (x : ℚ) (t : List ℚ) :
    (pre ++ x :: t).getD pre.length 0 = x := by
  induction pre with
  | nil => rfl
  | cons a p ih => simpa using ih

theorem argmaxAux_getD :
    ∀ (t pre : List ℚ) (bi : ℕ) (bv : ℚ), bi < pre.length → (pre ++ t).getD bi 0 = bv →
      (argmaxAux t pre.length (bi, bv)).1 < (pre ++ t).length ∧
      (pre ++ t).getD (argmaxAux t pre.length (bi, bv)).1 0 = (argmaxAux t pre.length (bi, bv)).2 := by
  intro t
  induction t with
  | nil =>
    intro pre bi bv hlt hget
    simp only [argmaxAux]
    constructor
    · simpa using lt_of_lt_of_le hlt (by simp)
    · simpa using hget
  | cons x t ih =>
    intro pre bi bv hlt hget
    show (argmaxAux (x :: t) pre.length (bi, bv)).1 < (pre ++ x :: t).length ∧ _
    have hassoc : pre ++ x :: t = (pre ++ [x]) ++ t := by simp
    have hlen : pre.length + 1 = (pre ++ [x]).length := by simp
    unfold argmaxAux
    by_cases hc : bv < x
    · rw [if_pos hc, hassoc, hlen]
      exact ih (pre ++ [x]) pre.length x (by simp)
        (by rw [← hassoc]; exact getD_append_length pre x t)
    · rw [if_neg hc, hassoc, hlen]
      exact ih (pre ++ [x]) bi bv (lt_of_lt_of_le hlt (by simp))
        (by rw [← hassoc]; exact hget)

theorem argmaxAux_ub :
    ∀ (t : List ℚ) (k bi : ℕ) (bv : ℚ),
      bv ≤ (argmaxAux t k (bi, bv)).2 ∧ ∀ x ∈ t, x ≤ (argmaxAux t k (bi, bv)).2 := by
  intro t
  induction t with
  | nil => intro k bi bv; exact ⟨le_refl bv, by simp⟩
  | cons x t ih =>
    intro k bi bv
    unfold argmaxAux
    by_cases hc : bv < x
    · rw [if_pos hc]
      obtain ⟨h1, h2⟩ := ih (k + 1) k x
      refine ⟨le_of_lt (lt_of_lt_of_le hc h1), ?_⟩
      intro y hy
      rcases List.mem_cons.mp hy with h | h
      · subst h; exact h1
      · exact h2 y h
    · rw [if_neg hc]
      obtain ⟨h1, h2⟩ := ih (k + 1) bi bv
      refine ⟨h1, ?_⟩
      intro y hy
      rcases List.mem_cons.mp hy with h | h
      · subst h; exact le_trans (le_of_not_lt hc) h1
      · exact h2 y h

theorem argmaxPair_spec (l : List ℚ) (h : l ≠ []) :
    (argmaxPair l).1 < l.length ∧
    l.getD (argmaxPair l).1 0 = (argmaxPair l).2 ∧
    ∀ x ∈ l, x ≤ (argmaxPair l).2 := by
  obtain ⟨x0, t, rfl⟩ : ∃ x0 t, l = x0 :: t := by
    cases l with
    | nil => exact absurd rfl h
    | cons a t => exact ⟨a, t, rfl⟩
  have hgd := argmaxAux_getD t [x0] 0 x0 (by simp) (by simp)
  have hub := argmaxAux_ub t 1 0 x0
  have hlen1 : ([x0] : List ℚ).length = 1 := rfl
  constructor
  · have := hgd.1
    simpa using this
  constructor
  · have := hgd.2
    simpa [argmaxPair] using this
  · intro x hx
    rcases List.mem_cons.mp hx with hh | hh
    · subst hh; exact hub.1
    · exact hub.2 x hh

theorem exists_getElem?_of_lt (l : List String) (i : ℕ) (h : i < l.length) :
    ∃ a, l[i]? = some a := by
  induction l generalizing i with
  | nil => simp at h
  | cons a t ih =>
    cases i with
    | zero => exact ⟨a, by simp⟩
    | succ n =>
      obtain ⟨b, hb⟩ := ih n (by simpa using h)
      exact ⟨b, by simpa using hb⟩

/-! ## Claims -/

/-- C4 counterexample: the input "-2к" carries a minus-signed numeric token of
nonzero value (its unsigned form "2к" parses to 2000, its suffix-free form "-2"
parses to -2 with the sign preserved), yet the parser returns Failure instead of
the negative value: the thousand-suffix branch rejects `amount <= 0` itself. -/
theorem claim_C4_counterexample :
    parse_amount "-2к" = none ∧
    parse_amount "2к" = some (⟨2000, 0⟩, "") ∧
    parse_amount "-2" = some (⟨-2, 0⟩, "") := by
  refine ⟨by decide, by decide, by decide⟩

/-- C4 amended: for plain numeric tokens a leading minus sign with nonzero value
is preserved (parse returns the negative value, validation is elsewhere), but on
the shorthand thousand-multiplier path a leading minus sign makes the parser
itself return Failure. -/
theorem claim_C4 (ds : List Char) (h1 : ds ≠ []) (h2 : (∀ c ∈ ds, isDigitC c = true))
    (h3 : digitsToNat ds ≠ 0) :
    parse_amount (String.mk ('-' :: ds)) = some (decOfTok true ds [], "") ∧
    (decOfTok true ds []).toRat = -(digitsToNat ds : ℚ) ∧
    parse_amount (String.mk ('-' :: (ds ++ ['к']))) = none := by
  refine ⟨?_, ?_, ?_⟩
  · unfold parse_amount
    rw [show (String.mk ('-' :: ds)).data = '-' :: ds from rfl,
      parseAmountCore_neg_digits ds h1 h2 h3]
    rfl
  · rw [decOfTok_toRat]
    norm_num [digitsToNat]
  · unfold parse_amount
    rw [show (String.mk ('-' :: (ds ++ ['к']))).data = '-' :: (ds ++ ['к']) from rfl,
      parseAmountCore_neg_digits_k ds h1 h2]
    rfl

/-- C4 witness at the spec's own example "-200" (and its к-suffixed form). -/
theorem claim_C4_witness :
    parse_amount "-200" = some (⟨-200, 0⟩, "") ∧
    parse_amount "-200к" = none := by
  have h := claim_C4 ['2', '0', '0'] (by decide) (by decide) (by decide)
  exact ⟨h.1, h.2.2⟩

/-- C5: on every valid (positive-valued) numeric string with the thousand-suffix
letter — integer or decimal-fraction form — the parser answers with the numeric
value times 1000 and an empty description, short-circuiting the plain patterns;
in particular "1.5к" parses to 1500.0 with empty description. -/
theorem claim_C5 :
    (∀ ds : List Char, ds ≠ [] → (∀ c ∈ ds, isDigitC c = true) → 0 < digitsToNat ds →
      parse_amount (String.mk (ds ++ ['к'])) = some ((decOfTok false ds []).scale 1000, "") ∧
      ((decOfTok false ds []).scale 1000).toRat = (digitsToNat ds : ℚ) * 1000) ∧
    (∀ ds es : List Char, ds ≠ [] → (∀ c ∈ ds, isDigitC c = true) →
      es ≠ [] → (∀ c ∈ es, isDigitC c = true) → 0 < (decOfTok false ds es).num →
      parse_amount (String.mk (ds ++ '.' :: (es ++ ['к']))) =
        some ((decOfTok false ds es).scale 1000, "") ∧
      ((decOfTok false ds es).scale 1000).toRat =
        ((digitsToNat ds : ℚ) + (digitsToNat es : ℚ) / (10 : ℚ) ^ es.length) * 1000) ∧
    (parse_amount "1.5к" = some (⟨15000, 1⟩, "") ∧ DecNum.toRat ⟨15000, 1⟩ = 1500) := by
  refine ⟨?_, ?_, by decide, by norm_num [DecNum.toRat]⟩
  · intro ds h1 h2 h3
    constructor
    · unfold parse_amount
      rw [show (String.mk (ds ++ ['к'])).data = ds ++ ['к'] from rfl,
        parseAmountCore_digits_k ds h1 h2 h3]
      rfl
    · rw [DecNum.scale_toRat, decOfTok_toRat]
      norm_num [digitsToNat]
  · intro ds es h1 h2 h3 h4 h5
    constructor
    · unfold parse_amount
      rw [show (String.mk (ds ++ '.' :: (es ++ ['к']))).data = ds ++ '.' :: (es ++ ['к'])
        from rfl, parseAmountCore_frac_k ds es h1 h2 h3 h4 h5]
      rfl
    · rw [DecNum.scale_toRat, decOfTok_toRat]
      norm_num

/-- C5 witness at "2к" and "1.5к" (as "1" "." "5" "к"). -/
theorem claim_C5_witness :
    parse_amount (String.mk (['2'] ++ ['к'])) = some ((decOfTok false ['2'] []).scale 1000, "") ∧
    parse_amount (String.mk (['1'] ++ '.' :: (['5'] ++ ['к']))) =
      some ((decOfTok false ['1'] ['5']).scale 1000, "") := by
  exact ⟨(claim_C5.1 ['2'] (by decide) (by decide) (by decide)).1,
    (claim_C5.2.1 ['1'] ['5'] (by decide) (by decide) (by decide) (by decide) (by decide)).1⟩

/-- C6 counterexample: "-1к" is neither empty, nor free of a numeric token, nor
does its numeric value resolve to zero (the token "-1" alone parses to -1), yet
the parser returns Failure — so "no numeric token / zero value / blank" are not
the only Failure causes. -/
theorem claim_C6_counterexample :
    parse_amount "-1к" = none ∧
    parse_amount "-1" = some (⟨-1, 0⟩, "") ∧
    ("-1к".data.any isDigitC) = true ∧
    trimC "-1к".data ≠ [] := by
  refine ⟨by decide, by decide, by decide, by decide⟩

/-- C6 amended: the parser fails on empty/whitespace-only input, on input with
no digit at all, and when the matched value resolves to zero; but it also fails
when the thousand-suffix pattern matches a non-positive value ("-1к", see the
counterexample) and when the numeric token is not in a position the grammar
accepts (e.g. "300 мороженое"); a bare nonzero digit string succeeds. -/
theorem claim_C6 :
    (∀ cs : List Char, trimC cs = [] → parseAmountCore cs = none) ∧
    (∀ cs : List Char, (∀ c ∈ cs, isDigitC c = false) → parseAmountCore cs = none) ∧
    (parse_amount "0" = none ∧ parse_amount "кофе 0" = none ∧ parse_amount "0к" = none) ∧
    parse_amount "300 мороженое" = none ∧
    (∀ ds : List Char, ds ≠ [] → (∀ c ∈ ds, isDigitC c = true) → digitsToNat ds ≠ 0 →
      parse_amount (String.mk ds) = some (decOfTok false ds [], "")) := by
  refine ⟨?_, ?_, ⟨by decide, by decide, by decide⟩, by decide, ?_⟩
  · intro cs h
    exact parseAmountCore_blank cs h
  · intro cs h
    exact parseAmountCore_nodigit cs h
  · intro ds h1 h2 h3
    unfold parse_amount
    rw [show (String.mk ds).data = ds from rfl, parseAmountCore_digits ds h1 h2 h3]
    rfl

/-- C6 witness: whitespace-only, digit-free, and bare-number inputs. -/
theorem claim_C6_witness :
    parseAmountCore "   ".data = none ∧
    parseAmountCore "кофе".data = none ∧
    parse_amount (String.mk ['5']) = some (decOfTok false ['5'] [], "") := by
  exact ⟨claim_C6.1 _ (by decide), claim_C6.2.1 _ (by decide),
    claim_C6.2.2.2.2 ['5'] (by decide) (by decide) (by decide)⟩

theorem DecNum.small_iff (d : DecNum) :
    d.toRat < (1000000000 : ℚ) ↔ d.num < 1000000000 * 10 ^ d.pow := by
  have hp : (0 : ℚ) < (10 : ℚ) ^ d.pow := by positivity
  unfold DecNum.toRat
  rw [div_lt_iff₀ hp]
  constructor <;> intro h <;> exact_mod_cast h

/-- C7: validate_amount rejects a parsed amount that is ≤ 0 and one that is
greater than 1,000,000,000, and accepts (returning the parsed amount) every
amount strictly between 0 and 1,000,000,000. -/
theorem claim_C7 (s : String) (d : DecNum) (rest : String)
    (hp : parse_amount s = some (d, rest)) :
    (d.toRat ≤ 0 → validate_amount s = (false, none, "Сумма должна быть положительной")) ∧
    ((1000000000 : ℚ) < d.toRat →
      validate_amount s = (false, none, "Слишком большая сумма. Проверьте ввод.")) ∧
    (0 < d.toRat → d.toRat < 1000000000 → validate_amount s = (true, some d, "")) := by
  have hblank : ¬(s.data.isEmpty = true ∨ (trimC s.data).isEmpty = true) := by
    rintro (h | h)
    · have hnil : s.data = [] := List.isEmpty_iff.mp h
      have : parse_amount s = none := by
        unfold parse_amount
        rw [parseAmountCore_blank s.data (by rw [hnil]; rfl)]
        rfl
      rw [this] at hp
      exact absurd hp (by simp)
    · have : parse_amount s = none := by
        unfold parse_amount
        rw [parseAmountCore_blank s.data (List.isEmpty_iff.mp h)]
        rfl
      rw [this] at hp
      exact absurd hp (by simp)
  refine ⟨?_, ?_, ?_⟩
  · intro h0
    have hnum : d.num ≤ 0 := (DecNum.toRat_nonpos_iff d).mp h0
    simp only [validate_amount, if_neg hblank, hp, if_pos hnum]
  · intro h9
    have hnum : ¬d.num ≤ 0 := by
      have : 0 < d.toRat := lt_trans (by norm_num) h9
      exact not_le.mpr ((DecNum.toRat_pos_iff d).mp this)
    have hbig : 1000000000 * (10 : ℤ) ^ d.pow < d.num := (DecNum.big_iff d).mp h9
    simp only [validate_amount, if_neg hblank, hp, if_neg hnum, if_pos hbig]
  · intro hlo hhi
    have hnum : ¬d.num ≤ 0 := not_le.mpr ((DecNum.toRat_pos_iff d).mp hlo)
    have hbig : ¬1000000000 * (10 : ℤ) ^ d.pow < d.num :=
      not_lt.mpr (le_of_lt ((DecNum.small_iff d).mp hhi))
    simp only [validate_amount, if_neg hblank, hp, if_neg hnum, if_neg hbig]

/-- C7 witness: a negative, an over-limit and an in-range amount string. -/
theorem claim_C7_witness :
    validate_amount "-5" = (false, none, "Сумма должна быть положительной") ∧
    validate_amount "2000000000" = (false, none, "Слишком большая сумма. Проверьте ввод.") ∧
    validate_amount "500" = (true, some ⟨500, 0⟩, "") := by
  refine ⟨(claim_C7 "-5" ⟨-5, 0⟩ "" (by decide)).1
      ((DecNum.toRat_nonpos_iff ⟨-5, 0⟩).mpr (by decide)),
    (claim_C7 "2000000000" ⟨2000000000, 0⟩ "" (by decide)).2.1
      ((DecNum.big_iff ⟨2000000000, 0⟩).mpr (by decide)),
    (claim_C7 "500" ⟨500, 0⟩ "" (by decide)).2.2
      ((DecNum.toRat_pos_iff ⟨500, 0⟩).mpr (by decide))
      ((DecNum.small_iff ⟨500, 0⟩).mpr (by decide))⟩

/-- C8: for a trained classifier on nonempty text (with a consistent label set),
predict_with_threshold returns (category, confidence, true) when the predicted
confidence reaches the threshold and (null, confidence, false) otherwise, where
the confidence is the maximum of the predicted distribution and the category is
the label at the arg-max index. -/
theorem claim_C8 (c : FinancialClassifier) (θ : ℚ) (text : String)
    (ht : c.is_trained = true) (hne : ¬text = "") (hp : c.proba text ≠ [])
    (hlen : c.classes.length = (c.proba text).length) :
    ∃ i conf cat,
      argmaxPair (c.proba text) = (i, conf) ∧
      (c.proba text).getD i 0 = conf ∧
      (∀ x ∈ c.proba text, x ≤ conf) ∧
      c.classes[i]? = some cat ∧
      (θ ≤ conf → c.predict_with_threshold θ text = some (some cat, conf, true)) ∧
      (conf < θ → c.predict_with_threshold θ text = some (none, conf, false)) := by
  have spec := argmaxPair_spec (c.proba text) hp
  obtain ⟨cat, hcat⟩ := exists_getElem?_of_lt c.classes (argmaxPair (c.proba text)).1
    (by rw [hlen]; exact spec.1)
  have hempty : (c.proba text).isEmpty = false := isEmpty_false_of_ne_nil hp
  have hpred : c.predict text = some (some cat, (argmaxPair (c.proba text)).2) := by
    unfold FinancialClassifier.predict
    rw [ht]
    simp only [Bool.true_eq_false, if_false, if_neg hne, hempty, Bool.false_eq_true]
    rw [hcat]
  have hpwt : c.predict_with_threshold θ text =
      if θ ≤ (argmaxPair (c.proba text)).2
      then some (some cat, (argmaxPair (c.proba text)).2, true)
      else some (none, (argmaxPair (c.proba text)).2, false) := by
    unfold FinancialClassifier.predict_with_threshold
    rw [hpred]
  refine ⟨(argmaxPair (c.proba text)).1, (argmaxPair (c.proba text)).2, cat, ?_,
    spec.2.1, spec.2.2, hcat, ?_, ?_⟩
  · rfl
  · intro h
    rw [hpwt, if_pos h]
  · intro h
    rw [hpwt, if_neg (not_le.mpr h)]

/-- C8 witness: a trained two-label classifier with distribution (0.9, 0.1) at
the configured 0.8 threshold. -/
theorem claim_C8_witness :
    FinancialClassifier.predict_with_threshold
      ⟨["Кафе", "Другое"], fun _ => [mkRat 9 10, mkRat 1 10], true⟩
      CONFIDENCE_THRESHOLD "кофе" = some (some "Кафе", mkRat 9 10, true) := by
  obtain ⟨i, conf, cat, h1, h2, h3, h4, h5, h6⟩ :=
    claim_C8 ⟨["Кафе", "Другое"], fun _ => [mkRat 9 10, mkRat 1 10], true⟩
      CONFIDENCE_THRESHOLD "кофе" rfl (by decide) (by decide) (by decide)
  have hic : (i, conf) = (0, mkRat 9 10) := by
    rw [← h1]
    decide
  have hi : i = 0 := congrArg Prod.fst hic
  have hconf : conf = mkRat 9 10 := congrArg Prod.snd hic
  subst hi hconf
  have hcatv : (⟨["Кафе", "Другое"], fun _ => [mkRat 9 10, mkRat 1 10], true⟩ :
      FinancialClassifier).classes[(0 : ℕ)]? = some "Кафе" := by decide
  rw [hcatv] at h4
  have hcat : cat = "Кафе" := by
    injection h4.symm with hh
  subst hcat
  exact h5 (by decide)

/-- C9: with a positive spending total, the recommendation list classifies each
of the three 50/30/20 groups (in BUDGET_RATIOS order) by its deviation from the
ideal share with a fixed ±10 percentage-point band: strictly above +10 is "over
target", strictly below -10 is "under target", and the whole closed band
[-10, +10] is "on target".  The band is the constant 10 baked into
classify_deviation, not a parameter of the call. -/
theorem claim_C9 (s : PeriodStats) (h : 0 < s.total_amount) :
    ∃ r, generate_budget_recommendations s = some r ∧
      r.1 = BUDGET_RATIOS.map (fun gi =>
        (gi.1, classify_deviation (group_percentage s gi.1 - gi.2 * 100))) ∧
      r.1.length = 3 ∧
      (∀ g ideal, (g, ideal) ∈ BUDGET_RATIOS →
        (g, classify_deviation (group_percentage s g - ideal * 100)) ∈ r.1) ∧
      (∀ d : ℚ, (classify_deviation d = RecKind.over ↔ 10 < d) ∧
        (classify_deviation d = RecKind.under ↔ d < -10) ∧
        (classify_deviation d = RecKind.onTarget ↔ -10 ≤ d ∧ d ≤ 10)) := by
  have hno : ¬s.total_amount ≤ 0 := not_le.mpr h
  have he : generate_budget_recommendations s =
      some (BUDGET_RATIOS.map (fun gi =>
          (gi.1, classify_deviation (group_percentage s gi.1 - gi.2 * 100))),
        if (|group_percentage s "essentials" - ((BUDGET_RATIOS.lookup "essentials").getD 0) * 100| ≤ 10) ∧
            (|group_percentage s "wants" - ((BUDGET_RATIOS.lookup "wants").getD 0) * 100| ≤ 10)
        then OverallAdvice.balanced
        else if ¬(|group_percentage s "essentials" -
            ((BUDGET_RATIOS.lookup "essentials").getD 0) * 100| ≤ 10)
        then OverallAdvice.cutEssentials else OverallAdvice.cutWants) := by
    simp only [generate_budget_recommendations, if_neg hno]
  refine ⟨_, he, rfl, rfl, ?_, ?_⟩
  · intro g ideal hmem
    have : (g = "essentials" ∧ ideal = mkRat 5 10) ∨ (g = "wants" ∧ ideal = mkRat 3 10) ∨
        (g = "savings" ∧ ideal = mkRat 2 10) := by
      simpa [BUDGET_RATIOS] using hmem
    rcases this with ⟨rfl, rfl⟩ | ⟨rfl, rfl⟩ | ⟨rfl, rfl⟩ <;> simp [BUDGET_RATIOS]
  · intro d
    unfold classify_deviation
    by_cases h1 : 10 < d
    · rw [if_pos h1]
      exact ⟨⟨fun _ => h1, fun _ => rfl⟩,
        ⟨fun hh => RecKind.noConfusion hh, fun hd => by linarith⟩,
        ⟨fun hh => RecKind.noConfusion hh, fun hd => by
          exact absurd h1 (not_lt.mpr hd.2)⟩⟩
    · rw [if_neg h1]
      by_cases h2 : d < -10
      · rw [if_pos h2]
        exact ⟨⟨fun hh => RecKind.noConfusion hh, fun hd => absurd hd h1⟩,
          ⟨fun _ => h2, fun _ => rfl⟩,
          ⟨fun hh => RecKind.noConfusion hh, fun hd => by
            exact absurd h2 (not_lt.mpr hd.1)⟩⟩
      · rw [if_neg h2]
        exact ⟨⟨fun hh => RecKind.noConfusion hh, fun hd => absurd hd h1⟩,
          ⟨fun hh => RecKind.noConfusion hh, fun hd => absurd hd h2⟩,
          ⟨fun _ => ⟨not_lt.mp h2, not_lt.mp h1⟩, fun _ => rfl⟩⟩

/-- C9 witness: a month with 100 spent, split 50 on Продукты and 50 on Еда. -/
theorem claim_C9_witness :
    ∃ r, generate_budget_recommendations ⟨100, [("Еда", 50), ("Продукты", 50)]⟩ = some r ∧
      r.1 = BUDGET_RATIOS.map (fun gi =>
        (gi.1, classify_deviation
          (group_percentage ⟨100, [("Еда", 50), ("Продукты", 50)]⟩ gi.1 - gi.2 * 100))) ∧
      r.1.length = 3 ∧
      (∀ g ideal, (g, ideal) ∈ BUDGET_RATIOS →
        (g, classify_deviation
          (group_percentage ⟨100, [("Еда", 50), ("Продукты", 50)]⟩ g - ideal * 100)) ∈ r.1) ∧
      (∀ d : ℚ, (classify_deviation d = RecKind.over ↔ 10 < d) ∧
        (classify_deviation d = RecKind.under ↔ d < -10) ∧
        (classify_deviation d = RecKind.onTarget ↔ -10 ≤ d ∧ d ≤ 10)) :=
  claim_C9 ⟨100, [("Еда", 50), ("Продукты", 50)]⟩ (by decide)

/-- C10: get_period_statistics always reports most_expensive = None and
most_frequent = None, whatever the period's transactions are, because its guard
reads `cursor.rowcount` right after a SELECT — which sqlite3 pins at -1. -/
theorem claim_C10 (rows : List TxRow) :
    (get_period_statistics rows).most_expensive = none ∧
    (get_period_statistics rows).most_frequent = none := by
  unfold get_period_statistics
  constructor <;> simp [select_rowcount]

/-- C1: in the /add text flow, once the input parses and the description gets a
classifier prediction (category, confidence): at confidence ≥ 0.85 the handler
inserts the transaction immediately with the suggested category, clears the
conversation state and ends the conversation (zero further interaction steps,
whether or not storage succeeds); at confidence < 0.8 (the configured
CONFIDENCE_THRESHOLD) it never inserts and always presents the manual
category-selection list. -/
theorem claim_C1 (c : FinancialClassifier) (lookup : String → Option ℕ) (ins : Option ℕ)
    (uid : ℕ) (text : String) (ud0 : UserData) (amount : DecNum) (desc : String)
    (cat : String) (conf : ℚ)
    (hp : parse_amount text = some (amount, desc)) (hd : ¬desc = "")
    (hpred : c.predict desc = some (some cat, conf)) :
    (HIGH_CONFIDENCE_THRESHOLD ≤ conf →
      add_transaction_text (some c) lookup ins uid text ud0 =
        ⟨.ended, UserData.empty, [⟨uid, amount, some desc, lookup cat⟩],
          if ins.isSome then .savedMsg else .saveErrorMsg⟩) ∧
    (conf < CONFIDENCE_THRESHOLD →
      (add_transaction_text (some c) lookup ins uid text ud0).state = .confirmCategory ∧
      (add_transaction_text (some c) lookup ins uid text ud0).inserts = [] ∧
      (add_transaction_text (some c) lookup ins uid text ud0).ui = .categoryList) ∧
    HIGH_CONFIDENCE_THRESHOLD = 85/100 ∧ CONFIDENCE_THRESHOLD = 8/10 := by
  have hpwt : c.predict_with_threshold CONFIDENCE_THRESHOLD desc =
      if CONFIDENCE_THRESHOLD ≤ conf then some (some cat, conf, true)
      else some (none, conf, false) := by
    unfold FinancialClassifier.predict_with_threshold
    rw [hpred]
  refine ⟨?_, ?_, ?_, ?_⟩
  · intro h85
    have h80 : CONFIDENCE_THRESHOLD ≤ conf :=
      le_trans (by decide : CONFIDENCE_THRESHOLD ≤ HIGH_CONFIDENCE_THRESHOLD) h85
    simp only [add_transaction_text, hp, if_neg hd, hpwt, if_pos h80, if_pos h85,
      Option.getD_some, if_true]
  · intro hlo
    have h80 : ¬CONFIDENCE_THRESHOLD ≤ conf := not_le.mpr hlo
    simp only [add_transaction_text, hp, if_neg hd, hpwt, if_neg h80]
    exact ⟨rfl, rfl, rfl⟩
  · unfold HIGH_CONFIDENCE_THRESHOLD
    rw [Rat.mkRat_eq_div]
    norm_num
  · unfold CONFIDENCE_THRESHOLD
    rw [Rat.mkRat_eq_div]
    norm_num

/-- C1 witness: a 0.9-confidence prediction on "кофе 300" auto-commits; a
0.5-confidence prediction falls to the manual category list. -/
theorem claim_C1_witness :
    add_transaction_text (some ⟨["Кафе"], fun _ => [mkRat 9 10], true⟩) (fun _ => some 4)
        (some 7) 1 "кофе 300" UserData.empty =
      ⟨.ended, UserData.empty, [⟨1, ⟨300, 0⟩, some "кофе", some 4⟩], .savedMsg⟩ ∧
    (add_transaction_text (some ⟨["Кафе"], fun _ => [mkRat 5 10], true⟩) (fun _ => some 4)
        (some 7) 1 "кофе 300" UserData.empty).ui = .categoryList := by
  constructor
  · exact (claim_C1 ⟨["Кафе"], fun _ => [mkRat 9 10], true⟩ (fun _ => some 4) (some 7) 1
      "кофе 300" UserData.empty ⟨300, 0⟩ "кофе" "Кафе" (mkRat 9 10)
      (by decide) (by decide) (by decide)).1 (by decide)
  · exact ((claim_C1 ⟨["Кафе"], fun _ => [mkRat 5 10], true⟩ (fun _ => some 4) (some 7) 1
      "кофе 300" UserData.empty ⟨300, 0⟩ "кофе" "Кафе" (mkRat 5 10)
      (by decide) (by decide) (by decide)).2.1 (by decide)).2.2

/-- C2 (code bug): the /add text flow never runs validate_amount, so a parsed
negative amount reaches the storage insert.  "кофе -300" parses to -300 with
description "кофе"; with a 0.9-confidence classifier the auto-commit path calls
insert_transaction with amount -300 (first conjunct) — and the confirm-yes path
likewise inserts a stored -200 because `if amount and category_id` is truthy for
-200 (last conjunct).  validate_amount itself would reject ("Сумма должна быть
положительной"), and the fast-add path, the only one that calls it, does
re-prompt without inserting (middle conjuncts) — matching the claim's intent. -/
theorem claim_C2_codebug :
    add_transaction_text (some ⟨["Кафе"], fun _ => [mkRat 9 10], true⟩) (fun _ => some 4)
        (some 7) 1 "кофе -300" UserData.empty =
      ⟨.ended, UserData.empty, [⟨1, ⟨-300, 0⟩, some "кофе", some 4⟩], .savedMsg⟩ ∧
    DecNum.toRat ⟨-300, 0⟩ < 0 ∧
    validate_amount "-300" = (false, none, "Сумма должна быть положительной") ∧
    fast_amount_input (some 7) 1 "-300" { UserData.empty with fast_category_id := some 4 } =
      ⟨.fastAmount, { UserData.empty with fast_category_id := some 4 }, [],
        .validationErrorPrompt⟩ ∧
    confirm_category_callback (some 7) 1 "confirm_yes"
        { UserData.empty with
          amount := some ⟨-200, 0⟩, category_id := some 4, description := some "" } =
      ⟨.ended, UserData.empty, [⟨1, ⟨-200, 0⟩, some "", some 4⟩], .savedMsg⟩ := by
  refine ⟨by decide, ?_, by decide, by decide, by decide⟩
  rw [DecNum.toRat_int]
  norm_num

/-- C3 (code bug): commit paths do clear the pending state unconditionally —
auto-commit with a failed insert clears and reports failure, and so does a
failed confirm-yes commit; the /add cancel paths clear as well.  But the /fast
flow's inline "fast_cancel" button ends the conversation with the pending
user_data left exactly as it was (first two conjuncts): a path reaching Cancel
with nonempty pending state (here left over from an interrupted /add) keeps it. -/
theorem claim_C3_codebug :
    fast_category_callback [(1, "Еда")] "fast_cancel"
        { UserData.empty with amount := some ⟨300, 0⟩, description := some "кофе" } =
      ⟨.ended, { UserData.empty with amount := some ⟨300, 0⟩, description := some "кофе" },
        [], .cancelMsg⟩ ∧
    ({ UserData.empty with amount := some ⟨300, 0⟩, description := some "кофе" } : UserData) ≠
      UserData.empty ∧
    (add_transaction_text (some ⟨["Кафе"], fun _ => [mkRat 9 10], true⟩) (fun _ => some 4)
        none 1 "кофе 300" { UserData.empty with amount := some ⟨300, 0⟩ }).ud =
      UserData.empty ∧
    (add_transaction_text (some ⟨["Кафе"], fun _ => [mkRat 9 10], true⟩) (fun _ => some 4)
        none 1 "кофе 300" { UserData.empty with amount := some ⟨300, 0⟩ }).ui =
      .saveErrorMsg ∧
    (confirm_category_callback none 1 "confirm_yes"
        { UserData.empty with amount := some ⟨300, 0⟩, category_id := some 4 }).ud =
      UserData.empty ∧
    (cancel_add { UserData.empty with amount := some ⟨300, 0⟩ }).ud = UserData.empty ∧
    (category_selection_callback [(4, "Еда")] "cancel_add"
        { UserData.empty with amount := some ⟨300, 0⟩ }).ud = UserData.empty := by
  refine ⟨by decide, by decide, by decide, by decide, by decide, by decide, by decide⟩
